import Mathlib

/-!
Verification of `tcpf` (a small TCP port forwarder, `tcpf.go`) against its
natural-language specification.

The development shallowly embeds the program:
* the per-direction byte pumps `readFromConn` / `writeToConn` act on explicit
  traces of socket read results and write outcomes;
* the connection-lifecycle manager (`TunnelRealm` / `TCPTunnel`) becomes a
  state-transition system over an explicit `RealmState`, with `join`, `leave`,
  `closeTunnel` and the pump-termination wrappers as state functions;
* `strconv.Itoa` on the global id counter becomes `itoa`;
* the accept loop of `main` becomes `acceptLoop` over a trace of accept
  results.

Definitions come first, then the theorems about them.
-/

namespace Tcpf

/-! ## Definitions -/

/-- A Go `error` value: either `io.EOF` or any other error (identified by a
code). -/
inductive GoError
  | eof
  | other (code : Nat)
  deriving DecidableEq

/-- A byte-slice chunk; bytes modelled as naturals. -/
abbrev Chunk := List Nat

/-- The constant `readBufSize = 1024` (tcpf.go line 15). -/
def readBufSize : Nat := 1024

/-- The environment's response to one `conn.Read` call: either it delivers a
batch of available bytes, or the read fails with an error. -/
inductive ReadEvent
  | data (bs : Chunk)
  | fail (e : GoError)
  deriving DecidableEq

/-- Semantics of one `(*conn).Read(bytes)` call with a buffer of `bufLen`
bytes: per the `io.Reader` contract it delivers at most `bufLen` bytes of what
the connection has available, or reports the error. Returns
`(bytes read, error)`. -/
def connRead (bufLen : Nat) : ReadEvent → Chunk × Option GoError
  | .data bs => (bs.take bufLen, none)
  | .fail e => ([], some e)

/-- Model of `readFromConn` (tcpf.go lines 131-140): the loop
`n, err := (*conn).Read(bytes); if err != nil { return err }; *channel <- bytes[:n]`.
Given the trace of read results, returns the chunks sent to the channel in
order, and the error the function returns (or `none` while still looping). -/
def readFromConn : List ReadEvent → List Chunk × Option GoError
  | [] => ([], none)
  | ev :: rest =>
    match connRead readBufSize ev with
    | (_, some e) => ([], some e)
    | (bs, none) =>
      let r := readFromConn rest
      (bs :: r.1, r.2)

/-- Model of `writeToConn` (tcpf.go lines 142-150): the loop
`bytes := <-*channel; _, err := (*conn).Write(bytes); if err != nil { return err }`.
First argument: the chunks arriving on the channel, in order; second: the
environment's outcome for each successive `Write` call (`none` = full write,
per the `io.Writer` contract). Returns the chunks fully written to the
destination connection in order, and the error returned (or `none` while
still looping / blocked). -/
def writeToConn : List Chunk → List (Option GoError) → List Chunk × Option GoError
  | [], _ => ([], none)
  | _ :: _, [] => ([], none)
  | c :: cs, o :: os =>
    match o with
    | some e => ([], some e)
    | none =>
      let r := writeToConn cs os
      (c :: r.1, r.2)

/-- One relay direction: the unbuffered channel hands the reader's chunks to
the writer in order, so the writer consumes exactly `(readFromConn evs).1`. -/
def relayDirection (evs : List ReadEvent) (ws : List (Option GoError)) :
    List Chunk × Option GoError :=
  writeToConn (readFromConn evs).1 ws

/-- The bytes the source connection hands over before its first read error. -/
def bytesRead : List ReadEvent → List Nat
  | [] => []
  | .data bs :: rest => bs.take readBufSize ++ bytesRead rest
  | .fail _ :: _ => []

/-- Decimal formatting loop of `strconv.Itoa` for non-negative ints: emit the
digits of `n`, most significant first. `fuel` bounds the recursion; `itoa`
always supplies enough. -/
def itoaCore : Nat → Nat → List Char
  | 0, _ => []
  | fuel + 1, n =>
    if n < 10 then [Char.ofNat (48 + n)]
    else itoaCore fuel (n / 10) ++ [Char.ofNat (48 + n % 10)]

/-- Model of `strconv.Itoa` for non-negative values (tcpf.go line 96): the
decimal string of `n`. -/
def itoa (n : Nat) : String :=
  (itoaCore (n + 1) n).asString

/-- Decimal parsing, used only to show `itoa` is injective. -/
def parseDec (cs : List Char) : Nat :=
  cs.foldl (fun acc c => acc * 10 + (c.toNat - 48)) 0

/-- Log lines the program emits (payloads abstract the formatted values). -/
inductive LogEvent
  | errorOccured (e : GoError)        -- "Error occured: %v"
  | connectionClosed (tid : String)   -- "Connection closed for %v"
  | tunnelLeaving (tid : String)      -- "Tunnel leaving realm and being closed: [%v]"
  | addedTunnel (tid : String)        -- "Added tunnel: %v:[%v]"
  | realmTunnels (tids : List String) -- "The realm has the following tunnels: [%v]"
  deriving DecidableEq

/-- A `TCPTunnel` object (tcpf.go lines 85-92). Connection handles are numbers
(`none` models a `nil` `net.Conn`); `inboundCloses` / `outboundCloses` count
the `Close()` calls issued on each handle (a handle is closed once the count
is positive). -/
structure Tunnel where
  tid : String
  inbound : Option Nat
  outbound : Nat
  inboundCloses : Nat
  outboundCloses : Nat
  deriving DecidableEq

/-- The realm's configuration fields (tcpf.go lines 27-34). -/
structure RealmConfig where
  bindIF : String
  bindPort : String
  dstHost : String
  dstPort : String
  deriving DecidableEq

/-- Global program state: the id counter (`var id`, tcpf.go line 20), the key
set of the registry map `realm.tunnels` (values are pointers into `heap`), the
heap of all tunnel objects ever created (pumps keep references to them after
removal from the registry), the realm goroutine's local variable `tunnel`
between line 66 (tunnel created, pumps already started) and line 68 (map
insert) — `pending` holds its id while the insert has not yet executed — and
the log. -/
structure RealmState where
  counter : Nat
  registry : List String
  heap : List Tunnel
  pending : Option String
  logs : List LogEvent
  deriving DecidableEq

def initState : RealmState :=
  { counter := 0, registry := [], heap := [], pending := none, logs := [] }

/-- The ids of all tunnel objects ever created, in creation order. -/
def heapIds (s : RealmState) : List String :=
  s.heap.map Tunnel.tid

/-- Model of `generateID` (tcpf.go lines 94-97):
`id++; return strconv.Itoa(id)`. Returns the new id string and the updated
counter. -/
def generateID (counter : Nat) : String × Nat :=
  (itoa (counter + 1), counter + 1)

/-- The address `newTCPTunnel` dials: `realm.dstHost + ":" + realm.dstPort`. -/
def dialAddress (cfg : RealmConfig) : String :=
  cfg.dstHost ++ ":" ++ cfg.dstPort

/-- Model of `newTCPTunnel` (tcpf.go lines 99-116). `dialTCP` is the
environment's response to `net.Dial("tcp", address)` (`none` = dial error).
On dial failure the program runs `os.Exit(1)`, modelled as `Except.error 1`;
on success the tunnel object is built with both close counts zero, and the
updated counter is returned alongside it. -/
def newTCPTunnel (conn : Option Nat) (cfg : RealmConfig)
    (dialTCP : String → Option Nat) (counter : Nat) : Except Nat (Tunnel × Nat) :=
  match dialTCP (dialAddress cfg) with
  | none => .error 1
  | some outbound =>
    let g := generateID counter
    .ok ({ tid := g.1, inbound := conn, outbound := outbound,
           inboundCloses := 0, outboundCloses := 0 }, g.2)

/-- Key-set effect of the map assignment `realm.tunnels[id] = tunnel`. -/
def registryInsert (tid : String) (registry : List String) : List String :=
  if tid ∈ registry then registry else registry ++ [tid]

/-- Line 66 of `TunnelRealm.join`: `tunnel := newTCPTunnel(conn, realm)`.
This may exit the process on dial failure; on success the tunnel object
exists, its four pumps are already running (`tunnel.listen()` is called
inside `newTCPTunnel`, line 114), and the tunnel is held in the realm
goroutine's local variable (`pending`) — the map insert of line 68 has not
happened yet. -/
def createTunnel (conn : Option Nat) (cfg : RealmConfig)
    (dialTCP : String → Option Nat) (s : RealmState) : Except Nat RealmState :=
  match newTCPTunnel conn cfg dialTCP s.counter with
  | .error c => .error c
  | .ok (t, counter') =>
    .ok { s with counter := counter',
                 heap := s.heap ++ [t],
                 pending := some t.tid }

/-- Lines 67-70 of `TunnelRealm.join`: `realm.tunnels[id] = tunnel` plus the
two log lines, performed by the realm goroutine on the tunnel it just
created (the one held in `pending`). -/
def registerPending (s : RealmState) : RealmState :=
  match s.pending with
  | none => s
  | some tid =>
    { s with registry := registryInsert tid s.registry,
             pending := none,
             logs := s.logs ++ [.addedTunnel tid,
                                .realmTunnels (registryInsert tid s.registry)] }

/-- Model of `TunnelRealm.join` (tcpf.go lines 65-71) as the realm goroutine
executes it when not interleaved with other goroutines: create the tunnel
(may exit the process on dial failure), then insert it into the registry and
log. -/
def join (conn : Option Nat) (cfg : RealmConfig) (dialTCP : String → Option Nat)
    (s : RealmState) : Except Nat RealmState :=
  match createTunnel conn cfg dialTCP s with
  | .error c => .error c
  | .ok s' => .ok (registerPending s')

/-- Effect on a heap object of the two `Close()` calls in `leave`: both close
counts of the tunnel named `tid` are bumped; other tunnels are untouched. -/
def closeBoth (tid : String) (t : Tunnel) : Tunnel :=
  if t.tid = tid then
    { t with inboundCloses := t.inboundCloses + 1,
             outboundCloses := t.outboundCloses + 1 }
  else t

/-- Model of `TunnelRealm.leave` (tcpf.go lines 73-79): log,
`delete(realm.tunnels, id)`, `(*tunnel.inbound).Close()`,
`(*tunnel.outbound).Close()`, log the remaining tunnels. -/
def leave (tid : String) (s : RealmState) : RealmState :=
  { counter := s.counter,
    registry := s.registry.filter (fun k => k != tid),
    heap := s.heap.map (closeBoth tid),
    pending := s.pending,
    logs := s.logs ++ [.tunnelLeaving tid,
                       .realmTunnels (s.registry.filter (fun k => k != tid))] }

/-- Model of `TCPTunnel.closeTunnel` (tcpf.go lines 152-155): log, then
`tunnel.realm.leave(tunnel)`. -/
def closeTunnel (tid : String) (s : RealmState) : RealmState :=
  leave tid { s with logs := s.logs ++ [.connectionClosed tid] }

/-- The shared tail of the four pump wrappers `readFromInbound`,
`readFromOutbound`, `writeToInbound`, `writeToOutbound` (tcpf.go lines
157-187): once the pump returns error `e`, run `if err != io.EOF { log }`,
then `closeTunnel`. -/
def pumpExit (e : GoError) (tid : String) (s : RealmState) : RealmState :=
  closeTunnel tid
    (if e = .eof then s else { s with logs := s.logs ++ [.errorOccured e] })

/-- One transition of the lifecycle system, at the granularity of the real
interleaving. The realm goroutine serves an admission in two separate steps —
`createTunnel` (line 66: tunnel built, its four pumps already started) and
`registerPending` (line 68: map insert) — because the pump goroutines run in
between: any pump of any tunnel in the heap, registered or not, may
terminate at any point (`pumpExit`). A `createTunnel` step only fires when
the dial succeeds (a failed dial exits the process, see `newTCPTunnel`) and
when no insert is outstanding, the realm goroutine being serial. -/
inductive Step (cfg : RealmConfig) : RealmState → RealmState → Prop
  | createTunnel (conn : Option Nat) (dialTCP : String → Option Nat)
      (s s' : RealmState) (hp : s.pending = none)
      (h : createTunnel conn cfg dialTCP s = .ok s') : Step cfg s s'
  | registerPending (s : RealmState) (h : s.pending ≠ none) :
      Step cfg s (registerPending s)
  | pumpExit (e : GoError) (tid : String) (s : RealmState)
      (h : tid ∈ heapIds s) : Step cfg s (pumpExit e tid s)

/-- States reachable from process start. -/
inductive Reachable (cfg : RealmConfig) : RealmState → Prop
  | init : Reachable cfg initState
  | step {s s' : RealmState} : Reachable cfg s → Step cfg s s' → Reachable cfg s'

/-- The inductive invariant: every tunnel object ever created carries the id
its creation rank dictates — the heap ids are exactly
`itoa 1, …, itoa counter` in creation order. -/
def goodState (s : RealmState) : Prop :=
  heapIds s = (List.range' 1 s.counter).map itoa

/-- A concrete realm configuration for witnesses and counterexamples. -/
def cfg0 : RealmConfig :=
  { bindIF := "", bindPort := "9000", dstHost := "localhost", dstPort := "7" }

/-- An environment in which every dial succeeds, yielding connection 7. -/
def dial0 : String → Option Nat := fun _ => some 7

/-- The state after one successful admission from process start. -/
def runOneJoin : RealmState :=
  match join (some 1) cfg0 dial0 initState with
  | .ok s => s
  | .error _ => initState

/-- The realm state right after tcpf.go line 66 of the first admission:
tunnel 1 is created and its four pumps are running, but the map insert of
line 68 has not executed yet. -/
def runSpawn1 : RealmState :=
  match createTunnel (some 1) cfg0 dial0 initState with
  | .ok s => s
  | .error _ => initState

/-- The race behind C4 and C9: one of tunnel 1's pumps terminates — closing
both handles, the registry delete being a no-op — before the realm goroutine
executes the map insert, which then registers the already-closed tunnel. -/
def runEarlyTeardown : RealmState :=
  registerPending (pumpExit .eof (itoa 1) runSpawn1)

/-- Tunnel 1's object after one teardown: one `Close()` call on each handle. -/
def tunnel1Closed : Tunnel :=
  { tid := itoa 1, inbound := some 1, outbound := 7,
    inboundCloses := 1, outboundCloses := 1 }

/-- Tunnel 1 admitted, then two of its pumps terminate, each invoking
`closeTunnel`, hence `leave`. -/
def runTwoTeardowns : RealmState :=
  pumpExit .eof (itoa 1) (pumpExit .eof (itoa 1) runOneJoin)

/-- The tunnel object created by the first admission of `runOneJoin`. -/
def tunnel1 : Tunnel :=
  { tid := itoa 1, inbound := some 1, outbound := 7,
    inboundCloses := 0, outboundCloses := 0 }

/-- Tunnel 1's object as it stands after the two teardowns of
`runTwoTeardowns`: each handle has received two `Close()` calls. -/
def tunnel1TwiceClosed : Tunnel :=
  { tid := itoa 1, inbound := some 1, outbound := 7,
    inboundCloses := 2, outboundCloses := 2 }

/-- An environment in which every dial fails. -/
def dialNone : String → Option Nat := fun _ => none

/-- The state after admitting a nil inbound connection from process start. -/
def runNilJoin : RealmState :=
  match join none cfg0 dial0 initState with
  | .ok s => s
  | .error _ => initState

/-- The tunnel object registered by `runNilJoin`: its inbound handle is nil. -/
def tunnelNil : Tunnel :=
  { tid := itoa 1, inbound := none, outbound := 7,
    inboundCloses := 0, outboundCloses := 0 }

/-- One result of `serverSock.Accept()`: the connection handle (`none` models
a `nil` `net.Conn`, which `Accept` returns alongside an error) and the error. -/
structure AcceptResult where
  conn : Option Nat
  err : Option GoError
  deriving DecidableEq

/-- Body of the accept loop (tcpf.go lines 197-203):
`conn, err := serverSock.Accept(); if err != nil { log }; realm.joining <- conn`.
Returns the log lines emitted and the value sent on `realm.joining`. -/
def acceptIter (r : AcceptResult) : List LogEvent × Option Nat :=
  ((match r.err with
    | none => []
    | some e => [.errorOccured e]), r.conn)

/-- The accept loop over a finite trace of accept results. There is no exit
from the loop body: every iteration emits its logs, sends its connection, and
the loop proceeds to the next accept. -/
def acceptLoop : List AcceptResult → List LogEvent × List (Option Nat)
  | [] => ([], [])
  | r :: rs =>
    ((acceptIter r).1 ++ (acceptLoop rs).1, (acceptIter r).2 :: (acceptLoop rs).2)

/-- The kinds of goroutines the program runs. -/
inductive GoTask
  | acceptLoopMain       -- the main goroutine running the accept loop
  | realmServe           -- spawned by TunnelRealm.listen (tcpf.go line 51)
  | readFromInboundPump  -- spawned by TCPTunnel.listen (tcpf.go line 125)
  | writeToOutboundPump  -- spawned by TCPTunnel.listen (tcpf.go line 126)
  | readFromOutboundPump -- spawned by TCPTunnel.listen (tcpf.go line 127)
  | writeToInboundPump   -- spawned by TCPTunnel.listen (tcpf.go line 128)
  deriving DecidableEq

/-- The two kinds of mutation of the registry map. -/
inductive MapMutation
  | insert
  | delete
  deriving DecidableEq

/-- Call-site table of the mutations of the registry map `realm.tunnels`, read
off the source. The insert `realm.tunnels[id] = tunnel` (line 68) is in
`join`, reached only from the `select` loop of the goroutine spawned by
`TunnelRealm.listen` (lines 50-59). The delete `delete(realm.tunnels, ...)`
(line 75) is in `leave`, reached only from `closeTunnel` (line 154), which
each of the four pump wrappers (lines 157-187) calls on its own goroutine.
There is no mutex, and `leave` is not funneled through the `joining` channel. -/
def registryMutationSites : List (MapMutation × GoTask) :=
  [(.insert, .realmServe),
   (.delete, .readFromInboundPump),
   (.delete, .writeToOutboundPump),
   (.delete, .readFromOutboundPump),
   (.delete, .writeToInboundPump)]

/-! ## Theorems -/

/-! ### Injectivity of the id formatting -/

theorem toNat_digitChar : ∀ d < 10, (Char.ofNat (48 + d)).toNat = 48 + d := by
  decide

theorem parseDec_append_digit (l : List Char) (c : Char) :
    parseDec (l ++ [c]) = parseDec l * 10 + (c.toNat - 48) := by
  simp [parseDec, List.foldl_append]

theorem parseDec_itoaCore : ∀ fuel n, n < 10 ^ fuel → parseDec (itoaCore fuel n) = n := by
  intro fuel
  induction fuel with
  | zero =>
    intro n hn
    interval_cases n
    simp [itoaCore, parseDec]
  | succ fuel ih =>
    intro n hn
    by_cases h10 : n < 10
    · simp only [itoaCore, if_pos h10]
      have hv := toNat_digitChar n h10
      simp [parseDec, hv]
    · simp only [itoaCore, if_neg h10]
      rw [parseDec_append_digit]
      have hdiv : n / 10 < 10 ^ fuel := by
        rw [Nat.div_lt_iff_lt_mul (by norm_num)]
        calc n < 10 ^ (fuel + 1) := hn
        _ = 10 ^ fuel * 10 := by ring
      rw [ih (n / 10) hdiv]
      have hv := toNat_digitChar (n % 10) (Nat.mod_lt n (by norm_num))
      rw [hv]
      omega

theorem lt_ten_pow_succ (n : Nat) : n < 10 ^ (n + 1) :=
  lt_of_lt_of_le (Nat.lt_pow_self (by norm_num) n)
    (Nat.pow_le_pow_right (by norm_num) (Nat.le_succ n))

theorem itoa_injective : Function.Injective itoa := by
  intro a b h
  have hdata : itoaCore (a + 1) a = itoaCore (b + 1) b := congrArg String.data h
  have ha := parseDec_itoaCore (a + 1) a (lt_ten_pow_succ a)
  have hb := parseDec_itoaCore (b + 1) b (lt_ten_pow_succ b)
  rw [← ha, ← hb, hdata]

/-! ### Lifecycle invariants -/

theorem closeBoth_tid (tid : String) (t : Tunnel) : (closeBoth tid t).tid = t.tid := by
  unfold closeBoth
  by_cases h : t.tid = tid <;> simp [h]

theorem heapIds_map_closeBoth (tid : String) (heap : List Tunnel) :
    (heap.map (closeBoth tid)).map Tunnel.tid = heap.map Tunnel.tid := by
  rw [List.map_map]
  exact List.map_congr_left (fun t _ => closeBoth_tid tid t)

theorem pumpExit_registry (e : GoError) (tid : String) (s : RealmState) :
    (pumpExit e tid s).registry = s.registry.filter (fun k => k != tid) := by
  by_cases h : e = .eof <;> simp [pumpExit, closeTunnel, leave, h]

theorem pumpExit_heap (e : GoError) (tid : String) (s : RealmState) :
    (pumpExit e tid s).heap = s.heap.map (closeBoth tid) := by
  by_cases h : e = .eof <;> simp [pumpExit, closeTunnel, leave, h]

theorem pumpExit_counter (e : GoError) (tid : String) (s : RealmState) :
    (pumpExit e tid s).counter = s.counter := by
  by_cases h : e = .eof <;> simp [pumpExit, closeTunnel, leave, h]

theorem pumpExit_logs (e : GoError) (tid : String) (s : RealmState) :
    (pumpExit e tid s).logs =
      s.logs ++ ((if e = .eof then [] else [LogEvent.errorOccured e]) ++
        [LogEvent.connectionClosed tid, LogEvent.tunnelLeaving tid,
         LogEvent.realmTunnels (s.registry.filter (fun k => k != tid))]) := by
  by_cases h : e = .eof <;> simp [pumpExit, closeTunnel, leave, h]

theorem registerPending_counter (s : RealmState) :
    (registerPending s).counter = s.counter := by
  unfold registerPending
  cases hp : s.pending <;> simp

theorem registerPending_heap (s : RealmState) :
    (registerPending s).heap = s.heap := by
  unfold registerPending
  cases hp : s.pending <;> simp

theorem createTunnel_good {conn : Option Nat} {cfg : RealmConfig}
    {dialTCP : String → Option Nat} {s s' : RealmState}
    (hgood : goodState s) (h : createTunnel conn cfg dialTCP s = .ok s') :
    goodState s' := by
  cases hdial : dialTCP (dialAddress cfg) with
  | none => simp [createTunnel, newTCPTunnel, hdial] at h
  | some ob =>
    simp [createTunnel, newTCPTunnel, generateID, hdial] at h
    subst h
    unfold goodState heapIds at hgood ⊢
    simp only [List.range'_concat, List.map_append]
    rw [← hgood]
    simp [Nat.add_comm]

theorem registerPending_good {s : RealmState} (hgood : goodState s) :
    goodState (registerPending s) := by
  unfold goodState heapIds
  rw [registerPending_heap, registerPending_counter]
  exact hgood

theorem pumpExit_preserves_good {e : GoError} {tid : String} {s : RealmState}
    (hgood : goodState s) : goodState (pumpExit e tid s) := by
  unfold goodState heapIds
  rw [pumpExit_heap, heapIds_map_closeBoth, pumpExit_counter]
  exact hgood

theorem reachable_good {cfg : RealmConfig} {s : RealmState}
    (h : Reachable cfg s) : goodState s := by
  induction h with
  | init => rfl
  | step _ hstep ih =>
    cases hstep with
    | createTunnel conn dialTCP s s' hp hc => exact createTunnel_good ih hc
    | registerPending s hpend => exact registerPending_good ih
    | pumpExit e tid s hmem => exact pumpExit_preserves_good ih

theorem reachable_runSpawn1 : Reachable cfg0 runSpawn1 :=
  Reachable.step Reachable.init
    (Step.createTunnel (some 1) dial0 initState runSpawn1 rfl rfl)

theorem reachable_runOneJoin : Reachable cfg0 runOneJoin :=
  Reachable.step reachable_runSpawn1
    (Step.registerPending runSpawn1 (by decide))

/-! ### Claim C4 (the registry can contain a fully closed tunnel) -/

/-- C4 fails on the code. `newTCPTunnel` starts the four pumps
(`tunnel.listen()`, tcpf.go line 114) before `join` inserts the tunnel into
the map (line 68), so a pump can terminate in that window: its `leave` closes
both connections (the registry delete being a no-op, the id not yet
registered), and the realm goroutine then performs the insert. The resulting
state `runEarlyTeardown` is reachable, and its registry contains tunnel 1
with both connection handles already closed — and, both reader pumps having
already run their teardown, the entry can moreover linger. -/
theorem registry_contains_fully_closed_tunnel :
    Reachable cfg0 runEarlyTeardown ∧
    tunnel1Closed ∈ runEarlyTeardown.heap ∧
    tunnel1Closed.tid ∈ runEarlyTeardown.registry ∧
    0 < tunnel1Closed.inboundCloses ∧ 0 < tunnel1Closed.outboundCloses := by
  refine ⟨?_, by decide, by decide, by decide, by decide⟩
  refine Reachable.step (Reachable.step reachable_runSpawn1 ?_)
    (Step.registerPending (pumpExit .eof (itoa 1) runSpawn1) (by decide))
  exact Step.pumpExit .eof (itoa 1) runSpawn1 (by decide)

/-! ### Claim C5 -/

/-- C5: in every reachable state the tunnel identities ever allocated are
exactly the string-formatted values `itoa 1, …, itoa counter` of the
monotonically increasing counter, hence pairwise distinct; and every further
step only grows the counter and the allocated-id list (never reset, never
reused), for any number of admissions. -/
theorem tunnel_ids_unique_and_monotone (cfg : RealmConfig) (s : RealmState)
    (h : Reachable cfg s) :
    heapIds s = (List.range' 1 s.counter).map itoa ∧
    (heapIds s).Nodup ∧
    (∀ s', Step cfg s s' →
      s.counter ≤ s'.counter ∧ List.Sublist (heapIds s) (heapIds s')) := by
  have hids := reachable_good h
  refine ⟨hids, ?_, ?_⟩
  · rw [hids]
    exact (List.nodup_range' 1 s.counter).map itoa_injective
  · intro s' hstep
    cases hstep with
    | createTunnel conn dialTCP s s' hp hc =>
      cases hdial : dialTCP (dialAddress cfg) with
      | none => simp [createTunnel, newTCPTunnel, hdial] at hc
      | some ob =>
        simp [createTunnel, newTCPTunnel, generateID, hdial] at hc
        subst hc
        constructor
        · exact Nat.le_succ s.counter
        · show List.Sublist (heapIds s) ((s.heap ++ [_]).map Tunnel.tid)
          rw [List.map_append]
          exact List.sublist_append_left (heapIds s) _
    | registerPending s hpend =>
      constructor
      · rw [registerPending_counter]
      · unfold heapIds
        rw [registerPending_heap]
    | pumpExit e tid s hmem =>
      constructor
      · rw [pumpExit_counter]
      · unfold heapIds
        rw [pumpExit_heap, heapIds_map_closeBoth]

/-- Witness for C5 at the concrete reachable state `runOneJoin`, with the
step part instantiated at a concrete pump termination. -/
theorem tunnel_ids_unique_and_monotone_witness :
    heapIds runOneJoin = (List.range' 1 runOneJoin.counter).map itoa ∧
    (heapIds runOneJoin).Nodup ∧
    runOneJoin.counter ≤ (pumpExit GoError.eof (itoa 1) runOneJoin).counter ∧
    List.Sublist (heapIds runOneJoin)
      (heapIds (pumpExit GoError.eof (itoa 1) runOneJoin)) := by
  have h := tunnel_ids_unique_and_monotone cfg0 runOneJoin reachable_runOneJoin
  exact ⟨h.1, h.2.1,
    h.2.2 (pumpExit GoError.eof (itoa 1) runOneJoin)
      (Step.pumpExit GoError.eof (itoa 1) runOneJoin (by decide))⟩

/-! ### Claim C2 (teardown is *not* idempotent on the connections) -/

/-- C2 counterexample: after tunnel 1's teardown is triggered by two of its
pump terminations (both clean EOF), each of its connection handles has
received 2 `Close()` calls — not exactly one — and the second invocation
changed the state, so repeated invocation is not a no-op. -/
theorem teardown_not_close_exactly_once :
    runTwoTeardowns.heap = [tunnel1TwiceClosed] ∧
    tunnel1TwiceClosed.inboundCloses = 2 ∧
    tunnel1TwiceClosed.outboundCloses = 2 ∧
    runTwoTeardowns ≠ pumpExit GoError.eof (itoa 1) runOneJoin := by
  refine ⟨rfl, rfl, rfl, ?_⟩
  decide

/-- C2 amended: teardown runs once per terminating pump, up to four times per
tunnel. Only the registry removal is idempotent: the entry is gone after the
first invocation and a second invocation leaves the registry unchanged. The
`Close()` calls are reissued by every invocation: after two teardown
invocations both close counts of the tunnel have grown by two (one per
invocation), not by one — the code relies on `net.Conn.Close` tolerating
repeated calls rather than on a one-shot guard. -/
theorem teardown_registry_idempotent_but_close_reissued
    (s : RealmState) (tid : String) (e₁ e₂ : GoError) :
    (pumpExit e₂ tid (pumpExit e₁ tid s)).registry = (pumpExit e₁ tid s).registry ∧
    tid ∉ (pumpExit e₁ tid s).registry ∧
    (pumpExit e₂ tid (pumpExit e₁ tid s)).heap =
      s.heap.map (fun t =>
        if t.tid = tid then
          { t with inboundCloses := t.inboundCloses + 2,
                   outboundCloses := t.outboundCloses + 2 }
        else t) := by
  refine ⟨?_, ?_, ?_⟩
  · rw [pumpExit_registry, pumpExit_registry, List.filter_filter]
    simp
  · rw [pumpExit_registry]
    simp [List.mem_filter]
  · rw [pumpExit_heap, pumpExit_heap, List.map_map]
    refine List.map_congr_left (fun t _ => ?_)
    show closeBoth tid (closeBoth tid t) = _
    unfold closeBoth
    by_cases h : t.tid = tid <;> simp [h]

/-! ### Claim C3 -/

/-- C3: for an admitted inbound connection, if the dial of the fixed
destination `dstHost:dstPort` fails, `newTCPTunnel` reaches `os.Exit(1)`
(modelled `Except.error 1`), so the admission (`join`) terminates the whole
process; and there is no retry or alternate destination: the outcome of
tunnel construction depends only on the dial result at that one fixed
address. -/
theorem dial_failure_exits_process (conn : Option Nat) (cfg : RealmConfig)
    (dialTCP : String → Option Nat) (s : RealmState)
    (h : dialTCP (dialAddress cfg) = none) :
    newTCPTunnel conn cfg dialTCP s.counter = .error 1 ∧
    join conn cfg dialTCP s = .error 1 ∧
    (∀ d₂ : String → Option Nat, d₂ (dialAddress cfg) = dialTCP (dialAddress cfg) →
      newTCPTunnel conn cfg d₂ s.counter = newTCPTunnel conn cfg dialTCP s.counter) := by
  refine ⟨?_, ?_, ?_⟩
  · simp [newTCPTunnel, h]
  · simp [join, createTunnel, newTCPTunnel, h]
  · intro d₂ hagree
    unfold newTCPTunnel
    rw [hagree]

/-- Witness for C3: with an environment refusing every dial, admission of a
concrete connection exits the process with code 1. -/
theorem dial_failure_exits_process_witness :
    newTCPTunnel (some 3) cfg0 dialNone initState.counter = .error 1 ∧
    join (some 3) cfg0 dialNone initState = .error 1 := by
  have h := dial_failure_exits_process (some 3) cfg0 dialNone initState rfl
  exact ⟨h.1, h.2.1⟩

/-! ### Claim C6 -/

/-- C6: termination of any one pump of a tunnel, with any error `e` (including
clean EOF), always yields full teardown: the registry entry is removed and
both connection handles of that tunnel receive a `Close()` call; the newly
emitted log lines contain the error exactly when `e` is not `io.EOF`. -/
theorem pump_termination_causes_full_teardown (s : RealmState) (tid : String)
    (e : GoError) (h : tid ∈ heapIds s) :
    tid ∉ (pumpExit e tid s).registry ∧
    (∃ t ∈ (pumpExit e tid s).heap, t.tid = tid ∧
      0 < t.inboundCloses ∧ 0 < t.outboundCloses) ∧
    (∀ t ∈ (pumpExit e tid s).heap, t.tid = tid →
      0 < t.inboundCloses ∧ 0 < t.outboundCloses) ∧
    (LogEvent.errorOccured e ∈ (pumpExit e tid s).logs.drop s.logs.length ↔
      e ≠ GoError.eof) := by
  refine ⟨?_, ?_, ?_, ?_⟩
  · rw [pumpExit_registry]
    simp [List.mem_filter]
  · rcases List.mem_map.1 h with ⟨t₀, ht₀, htid⟩
    refine ⟨closeBoth tid t₀, ?_, ?_, ?_, ?_⟩
    · rw [pumpExit_heap]
      exact List.mem_map_of_mem (closeBoth tid) ht₀
    · rw [closeBoth_tid]; exact htid
    · unfold closeBoth; rw [if_pos htid]; exact Nat.succ_pos _
    · unfold closeBoth; rw [if_pos htid]; exact Nat.succ_pos _
  · intro t ht htid
    rw [pumpExit_heap] at ht
    rcases List.mem_map.1 ht with ⟨t₀, _, hEq⟩
    have h₀ : t₀.tid = tid := by rw [← htid, ← hEq, closeBoth_tid]
    rw [← hEq]
    unfold closeBoth
    rw [if_pos h₀]
    exact ⟨Nat.succ_pos _, Nat.succ_pos _⟩
  · rw [pumpExit_logs, List.drop_left]
    by_cases heof : e = .eof <;> simp [heof]

/-- Witness for C6: a pump of the one live tunnel of `runOneJoin` terminates
with a non-EOF error; the registry entry is gone, tunnel 1's handles are
closed, and the error was logged. -/
theorem pump_termination_causes_full_teardown_witness :
    itoa 1 ∉ (pumpExit (.other 5) (itoa 1) runOneJoin).registry ∧
    (0 < (closeBoth (itoa 1) tunnel1).inboundCloses ∧
      0 < (closeBoth (itoa 1) tunnel1).outboundCloses) ∧
    (LogEvent.errorOccured (.other 5) ∈
        (pumpExit (.other 5) (itoa 1) runOneJoin).logs.drop runOneJoin.logs.length ↔
      GoError.other 5 ≠ GoError.eof) := by
  have h := pump_termination_causes_full_teardown runOneJoin (itoa 1) (.other 5) (by decide)
  exact ⟨h.1, h.2.2.1 (closeBoth (itoa 1) tunnel1) (by decide) (by decide), h.2.2.2⟩

/-! ### Claims C1 and C7: the per-direction byte pumps -/

theorem readFromConn_data (bs : Chunk) (rest : List ReadEvent) :
    readFromConn (.data bs :: rest) =
      (bs.take readBufSize :: (readFromConn rest).1, (readFromConn rest).2) := rfl

theorem readFromConn_fail (e : GoError) (rest : List ReadEvent) :
    readFromConn (.fail e :: rest) = ([], some e) := rfl

theorem readFromConn_flatten (evs : List ReadEvent) :
    (readFromConn evs).1.flatten = bytesRead evs := by
  induction evs with
  | nil => rfl
  | cons ev rest ih =>
    cases ev with
    | data bs => rw [readFromConn_data]; simp [bytesRead, ih]
    | fail e => rw [readFromConn_fail]; rfl

theorem writeToConn_all_ok : ∀ (cs : List Chunk) (ws : List (Option GoError)),
    (∀ o ∈ ws, o = none) → cs.length ≤ ws.length → writeToConn cs ws = (cs, none)
  | [], _, _, _ => rfl
  | _ :: _, [], _, hlen => absurd hlen (by simp)
  | c :: cs, o :: ws, hok, hlen => by
    have ho : o = none := hok o (List.mem_cons_self o ws)
    subst ho
    show (let r := writeToConn cs ws; (c :: r.1, r.2)) = _
    rw [writeToConn_all_ok cs ws (fun o ho => hok o (List.mem_cons_of_mem _ ho))
      (Nat.le_of_succ_le_succ hlen)]

/-- C1: for any trace of source reads, as long as the destination accepts
every write, the chunks written to the destination are exactly the chunks
read from the source — the same list, so same order, no duplication, no
merging — and the bytes delivered equal the bytes the source handed over. -/
theorem relay_preserves_order_and_bytes (evs : List ReadEvent)
    (ws : List (Option GoError)) (hok : ∀ o ∈ ws, o = none)
    (hlen : (readFromConn evs).1.length ≤ ws.length) :
    (relayDirection evs ws).1 = (readFromConn evs).1 ∧
    (relayDirection evs ws).1.flatten = bytesRead evs := by
  unfold relayDirection
  rw [writeToConn_all_ok (readFromConn evs).1 ws hok hlen]
  exact ⟨rfl, readFromConn_flatten evs⟩

/-- Witness for C1 on a concrete two-chunk trace. -/
theorem relay_preserves_order_and_bytes_witness :
    (relayDirection [.data [5, 6], .data [7], .fail .eof] [none, none]).1 =
      (readFromConn [.data [5, 6], .data [7], .fail .eof]).1 ∧
    (relayDirection [.data [5, 6], .data [7], .fail .eof] [none, none]).1.flatten =
      bytesRead [.data [5, 6], .data [7], .fail .eof] :=
  relay_preserves_order_and_bytes [.data [5, 6], .data [7], .fail .eof]
    [none, none] (by decide) (by decide)

/-- C7: a reader pump run whose source yields the successful reads `pre` (all
non-empty, as TCP reads with a non-empty buffer are) and then a read error
`e`: the pump hands to the handoff exactly one chunk per successful read, in
order (each being what the 1024-byte-buffer `Read` delivered); every handed
chunk is non-empty and at most `readBufSize = 1024` bytes; and the pump
terminates with the first read error, regardless of anything after it. -/
theorem reader_pump_bounded_nonempty_chunks (pre post : List ReadEvent)
    (e : GoError) (hpre : ∀ ev ∈ pre, ∃ bs, ev = ReadEvent.data bs ∧ bs ≠ []) :
    (readFromConn (pre ++ ReadEvent.fail e :: post)).1 =
      pre.map (fun ev => (connRead readBufSize ev).1) ∧
    (∀ c ∈ (readFromConn (pre ++ ReadEvent.fail e :: post)).1,
      c ≠ [] ∧ c.length ≤ readBufSize) ∧
    (readFromConn (pre ++ ReadEvent.fail e :: post)).2 = some e := by
  induction pre with
  | nil =>
    rw [List.nil_append, readFromConn_fail]
    exact ⟨rfl, by intro c hc; exact absurd hc (List.not_mem_nil c), rfl⟩
  | cons ev rest ih =>
    obtain ⟨bs, hev, hne⟩ := hpre ev (List.mem_cons_self ev rest)
    have hrest : ∀ ev' ∈ rest, ∃ bs', ev' = ReadEvent.data bs' ∧ bs' ≠ [] :=
      fun ev' h' => hpre ev' (List.mem_cons_of_mem ev h')
    obtain ⟨ih1, ih2, ih3⟩ := ih hrest
    subst hev
    rw [List.cons_append, readFromConn_data]
    refine ⟨?_, ?_, ih3⟩
    · rw [List.map_cons, ih1]
      rfl
    · intro c hc
      rcases List.mem_cons.1 hc with hhd | htl
      · subst hhd
        constructor
        · intro hnil
          rcases List.take_eq_nil_iff.1 hnil with h1024 | hbs
          · exact absurd h1024 (by simp [readBufSize])
          · exact hne hbs
        · exact List.length_take_le readBufSize bs
      · exact ih2 c htl

/-- Witness for C7 on a concrete trace: two non-empty reads, then an error.
The pump hands over exactly the two read chunks, the first handed chunk is
non-empty and within the buffer bound, and the pump returns the error. -/
theorem reader_pump_bounded_nonempty_chunks_witness :
    (readFromConn ([.data [9], .data [3, 4]] ++ ReadEvent.fail (.other 1) :: [.data [8]])).1 =
      [[9], [3, 4]] ∧
    (([9] : Chunk) ≠ [] ∧ ([9] : Chunk).length ≤ readBufSize) ∧
    (readFromConn ([.data [9], .data [3, 4]] ++ ReadEvent.fail (.other 1) :: [.data [8]])).2 =
      some (.other 1) := by
  have h := reader_pump_bounded_nonempty_chunks [.data [9], .data [3, 4]] [.data [8]]
    (.other 1) (by
      intro ev hev
      rcases List.mem_cons.1 hev with h | h
      · exact ⟨[9], h, by decide⟩
      · rcases List.mem_cons.1 h with h2 | h2
        · exact ⟨[3, 4], h2, by decide⟩
        · exact absurd h2 (List.not_mem_nil ev))
  exact ⟨h.1.trans (by decide), h.2.1 [9] (by rw [h.1]; decide), h.2.2⟩

/-! ### Claims C8 and C10: the accept loop of `main` -/

theorem acceptLoop_sent (rs : List AcceptResult) :
    (acceptLoop rs).2 = rs.map AcceptResult.conn := by
  induction rs with
  | nil => rfl
  | cons r rs ih => simp [acceptLoop, acceptIter, ih]

theorem acceptLoop_logs (rs : List AcceptResult) :
    (acceptLoop rs).1 = rs.filterMap (fun r => r.err.map LogEvent.errorOccured) := by
  induction rs with
  | nil => rfl
  | cons r rs ih =>
    cases h : r.err <;> simp [acceptLoop, acceptIter, h, ih]

/-- C8: for every trace of accept results, the loop processes all of them —
one connection forwarded per iteration, so an accept failure never terminates
the loop or the process — and the logged lines are exactly one error line per
failed accept. -/
theorem accept_failure_logged_and_loop_continues (rs : List AcceptResult) :
    (acceptLoop rs).2 = rs.map AcceptResult.conn ∧
    (acceptLoop rs).2.length = rs.length ∧
    (acceptLoop rs).1 = rs.filterMap (fun r => r.err.map LogEvent.errorOccured) :=
  ⟨acceptLoop_sent rs, by rw [acceptLoop_sent rs, List.length_map], acceptLoop_logs rs⟩

theorem mem_registryInsert_self (tid : String) (registry : List String) :
    tid ∈ registryInsert tid registry := by
  unfold registryInsert
  by_cases h : tid ∈ registry <;> simp [h]

/-- C10: if an accept iteration fails (and, per the `net.Listener` contract,
its connection handle is nil), the nil handle is nevertheless sent to the
realm's joining channel; and when the realm serves such a nil connection, a
successful dial makes it construct and register a tunnel whose inbound
connection is nil. -/
theorem accept_error_sends_nil_conn_to_realm (rs : List AcceptResult)
    (r : AcceptResult) (e : GoError) (hr : r ∈ rs) (herr : r.err = some e)
    (hnil : r.conn = none) (cfg : RealmConfig) (dialTCP : String → Option Nat)
    (s : RealmState) (ob : Nat) (hdial : dialTCP (dialAddress cfg) = some ob) :
    none ∈ (acceptLoop rs).2 ∧
    (∃ s', join none cfg dialTCP s = .ok s' ∧
      ∃ t ∈ s'.heap, t.inbound = none ∧ t.tid ∈ s'.registry) := by
  constructor
  · rw [acceptLoop_sent]
    rw [← hnil]
    exact List.mem_map_of_mem AcceptResult.conn hr
  · simp only [join, createTunnel, registerPending, newTCPTunnel, generateID, hdial]
    refine ⟨_, rfl, ?_⟩
    refine ⟨{ tid := itoa (s.counter + 1), inbound := none, outbound := ob,
              inboundCloses := 0, outboundCloses := 0 }, ?_, rfl, ?_⟩
    · simp
    · exact mem_registryInsert_self (itoa (s.counter + 1)) s.registry

/-- Witness for C10: an accept trace with one failed accept (nil conn), then
serving the nil conn in an environment whose dial yields connection 7: the
nil conn reaches the joining channel and the registered tunnel `tunnelNil`
has a nil inbound handle. -/
theorem accept_error_sends_nil_conn_to_realm_witness :
    none ∈ (acceptLoop [⟨none, some (.other 2)⟩]).2 ∧
    join none cfg0 dial0 initState = .ok runNilJoin ∧
    tunnelNil ∈ runNilJoin.heap ∧
    tunnelNil.inbound = none ∧
    tunnelNil.tid ∈ runNilJoin.registry := by
  have h := accept_error_sends_nil_conn_to_realm [⟨none, some (.other 2)⟩]
    ⟨none, some (.other 2)⟩ (.other 2) (by decide) rfl rfl cfg0 dial0 initState 7 rfl
  obtain ⟨h1, s', hj, t, ht, hinb, hreg⟩ := h
  have hs' : runNilJoin = s' := by
    have hj0 : join none cfg0 dial0 initState = .ok runNilJoin := rfl
    injection hj0.symm.trans hj
  subst hs'
  have ht' : t = tunnelNil := List.mem_singleton.1 ht
  subst ht'
  exact ⟨h1, rfl, ht, hinb, hreg⟩

/-! ### Claim C9: which goroutines mutate the registry map -/

/-- C9 fails on the code: the registry map is not mutated by a single logical
owner. The insert runs on the realm's serving goroutine while the deletes run
on the four pump goroutines of each tunnel — five distinct goroutine kinds,
with no serialization between them. -/
theorem registry_mutations_not_single_owner :
    ((MapMutation.insert, GoTask.realmServe) ∈ registryMutationSites ∧
      (MapMutation.delete, GoTask.readFromInboundPump) ∈ registryMutationSites) ∧
    ¬ ∃ g : GoTask, ∀ p ∈ registryMutationSites, p.2 = g := by
  refine ⟨⟨by decide, by decide⟩, ?_⟩
  rintro ⟨g, hg⟩
  have h1 : GoTask.realmServe = g :=
    hg (MapMutation.insert, GoTask.realmServe) (by decide)
  have h2 : GoTask.readFromInboundPump = g :=
    hg (MapMutation.delete, GoTask.readFromInboundPump) (by decide)
  rw [← h1] at h2
  exact absurd h2 (by decide)

end Tcpf
